import Mathlib

/-!
Verification of the modal navigation engine of vim-notion
(src/src/content_scripts/vim.ts) against its natural-language
specification.  The DOM content tree, the linear-offset / selection
mapping, the motion engine, the mode state machine and the line
registry are embedded as executable Lean definitions translated from
the TypeScript source; the spec's claims are then settled as theorems
about those definitions.
-/

set_option autoImplicit false

namespace VimNotion

/-! ## DOM content-tree model

A surface (an editable block) is an element whose `childNodes` form a
list of nodes; each node is either a text node carrying a string or an
element node carrying its own child list.  `textContent` of an element
is the concatenation of its descendants' text.  A (collapsed) selection
anchor is the path of child indices from the surface root down to the
range's `startContainer` node, together with the `startOffset` inside
that node; `none` models a document with no selection (or
`rangeCount === 0`). -/

mutual
inductive DomNode : Type where
  | text : String → DomNode
  | elem : DomForest → DomNode

inductive DomForest : Type where
  | nil : DomForest
  | cons : DomNode → DomForest → DomForest
end

/-- Selection anchor: path of child indices from the surface root to the
range's start container, plus the start offset inside that node. -/
abbrev Sel := List Nat × Nat

mutual
-- node.textContent.length
def textLen : DomNode → Nat
  | .text s => s.length
  | .elem cs => textLenList cs

-- total textContent length of a child list
def textLenList : DomForest → Nat
  | .nil => 0
  | .cons n rest => textLen n + textLenList rest
end

-- Helper building the result path of `setCursorPosition` when the
-- matching node was not the first child: shift the head index by one.
def addIdx : Option Sel → Option Sel
  | none => none
  | some ([], o) => some ([], o)
  | some (k :: p, o) => some ((k + 1) :: p, o)

/-- vim.ts lines 128-150, `setCursorPosition(element, index)`.

The source keeps a running total `i` of the text length of the children
already passed and tests `isInRange = index >= i && index <= i +
node.textContent.length`; since `i` only moves past a node when
`index > i + len`, the invariant `i <= index` holds throughout, so we
carry the difference `index - i` as the natural number `j`.  On an
in-range element node the source recurses with `index - i` and breaks
whether or not the recursion placed a selection; on an in-range text
node it places the collapsed range at `(node, index - i)` and breaks.
If the loop runs out of children, no selection is placed (result
`none`; the document's previous selection, if any, is left as it was). -/
def setCursorPosition : DomForest → Nat → Option Sel
  | .nil, _ => none
  | .cons (.text s) rest, j =>
      if j ≤ s.length then some ([0], j)
      else addIdx (setCursorPosition rest (j - s.length))
  | .cons (.elem cs) rest, j =>
      if j ≤ textLenList cs then
        (setCursorPosition cs j).map (fun r => (0 :: r.1, r.2))
      else addIdx (setCursorPosition rest (j - textLenList cs))

/-- Effect of `setCursorPosition` on the document's selection: either a
new collapsed range is placed (`selection.removeAllRanges();
selection.addRange(range)`), or — when the walk finds no in-range text
node — the previous selection is left unchanged. -/
def applySetCursor (cs : DomForest) (index : Nat) (sel : Option Sel) : Option Sel :=
  match setCursorPosition cs index with
  | some s => some s
  | none => sel

-- Path bookkeeping for the `getCursorIndex` walk.  A target path `[]`
-- can never match any node (the source compares node identity via
-- `isSameNode`; no node has the empty relative path).
def relHead : List Nat → List Nat
  | 0 :: p => p
  | _ => []

def decHead : List Nat → List Nat
  | Nat.succ j :: p => j :: p
  | _ => []

/-- vim.ts lines 102-118, `checkElementNode` inside `getCursorIndex`.

Walks a child list, accumulating text lengths into the running index
`i`.  At a text node it compares identity with the range's start
container (here: relative target path `[0]`) and on a hit adds the
start offset and returns `true`.  At an element node the source recurses
and then does `if (checkElementNode(node)) break; else continue;` —
note that the `break` falls through to `return false`, so a find that
happened two or more levels down reports `false` to the caller, which
then keeps accumulating the following siblings.  The returned pair is
(return value of `checkElementNode`, text accumulated at this level). -/
def checkElementNode : DomForest → List Nat → Nat → Bool × Nat
  | .nil, _, _ => (false, 0)
  | .cons (.text s) rest, target, off =>
      if target = [0] then (true, off)
      else
        let r := checkElementNode rest (decHead target) off
        (r.1, s.length + r.2)
  | .cons (.elem cs) rest, target, off =>
      let inner := checkElementNode cs (relHead target) off
      if inner.1 then (false, inner.2)
      else
        let r := checkElementNode rest (decHead target) off
        (r.1, inner.2 + r.2)

/-- vim.ts lines 95-122, `getCursorIndex()`.

Returns 0 when there is no selection or `rangeCount === 0`; otherwise
runs `checkElementNode(document.activeElement)` and returns the
accumulated index `i`, whether or not the walk reported a find. -/
def getCursorIndex (cs : DomForest) (sel : Option Sel) : Nat :=
  match sel with
  | none => 0
  | some (p, off) => (checkElementNode cs p off).2

/-- vim.ts lines 185-189, `moveCursorBackwards()`: return at linear
offset 0, otherwise request placement at the current offset minus 1. -/
def moveCursorBackwards (surf : DomForest) (sel : Option Sel) : Option Sel :=
  let cur := getCursorIndex surf sel
  if cur = 0 then sel
  else applySetCursor surf (cur - 1) sel

/-- vim.ts lines 191-196, `moveCursorForwards()`: return when the
current linear offset is at least
`document.activeElement.textContent.length`, otherwise request
placement at the current offset plus 1. -/
def moveCursorForwards (surf : DomForest) (sel : Option Sel) : Option Sel :=
  let cur := getCursorIndex surf sel
  if cur ≥ textLenList surf then sel
  else applySetCursor surf (cur + 1) sel

/-! ## Word-forward motion (vim.ts lines 53-85)

`jumpToNextWORD` works on the flat rendered text (`innerText`) of the
current node, modelled as a list of characters, and on the registry of
tracked lines, modelled by each line's text. -/

/-- Modelled from the spec: the shared whitespace character-class test
imported from `../constants` (that file is not included under src/);
per the spec it is the engine-wide whitespace class, applied
character-by-character with the first match winning. -/
def whitespace (c : Char) : Bool := c.isWhitespace

-- currentRemainingText.search(whitespace): index of the first
-- whitespace character, or none (JS `-1`).
def searchWS : List Char → Option Nat
  | [] => none
  | c :: rest => if whitespace c then some 0 else (searchWS rest).map (· + 1)

/-- vim.ts lines 60-68: the first whitespace index at or after `pos`,
or the text length when there is none. -/
def nextWhiteSpaceIndex (text : List Char) (pos : Nat) : Nat :=
  match searchWS (text.drop pos) with
  | some k => pos + k
  | none => text.length

/-- vim.ts lines 53-85 with the `node` argument present (the internal
continuation call): the cross-line branch is skipped because `!node`
fails, so the motion stays inside the given text.  Result: the linear
offset passed to `setCursorPosition`. -/
def jumpWithin (text : List Char) (pos : Nat) : Nat :=
  let nws := nextWhiteSpaceIndex text pos
  if nws < text.length then nws + 1 else nws

/-- Where `jumpToNextWORD` placed the cursor: in the element the motion
started from (`document.activeElement`), or in a registry line given by
its index. -/
inductive CursorPlace : Type where
  | current : Nat → CursorPlace
  | line : Nat → Nat → CursorPlace
deriving DecidableEq, Repr

/-- vim.ts lines 53-85, `jumpToNextWORD()` invoked with no arguments
(the `W` key): `lines` holds the innerText of each tracked line,
`active` is `vim_info.active_line`, `focusText` the innerText of
`document.activeElement`, and `cur` the current cursor index.  Returns
the new `active_line` and the placement request.  When the first
whitespace search runs off the end and `lines[active + 1]?.element`
exists, the source calls `setActiveLine(active_line + 1)` (which sets
`active_line` to `active + 1`, the index being in range) and then
either recurses into the next line from offset 0 — when
`whitespace.test(new_elem.innerText[0])` holds — or places the cursor
at offset 0 of the next line.  `innerText[0]` of an empty string is
`undefined`, and the regex test of `undefined` is false, hence the
`none` head falls to the offset-0 branch. -/
def jumpToNextWORD (lines : List (List Char)) (active : Nat)
    (focusText : List Char) (cur : Nat) : Nat × CursorPlace :=
  let nws := nextWhiteSpaceIndex focusText cur
  if nws < focusText.length then (active, .current (nws + 1))
  else
    match lines[active + 1]? with
    | some nextText =>
        match nextText.head? with
        | some c =>
            if whitespace c then (active + 1, .line (active + 1) (jumpWithin nextText 0))
            else (active + 1, .line (active + 1) 0)
        | none => (active + 1, .line (active + 1) 0)
    | none => (active, .current nws)

/-! ## Mode state machine (vim.ts lines 124-126, 152-159, 171-183, 198-233) -/

inductive Mode : Type where
  | normal : Mode
  | insert : Mode
deriving DecidableEq, Repr

-- the literal string stored in vim_info.mode
def modeName : Mode → String
  | .normal => "normal"
  | .insert => "insert"

-- mode.toUpperCase()
def toUpperCase (s : String) : String := String.mk (s.data.map Char.toUpper)

/-- vim.ts lines 124-126, `getModeText(mode)`. -/
def getModeText (m : Mode) : String := "-- " ++ toUpperCase (modeName m) ++ " --"

/-- Which motion a `normalReducer` case invoked. -/
inductive VimMotion : Type where
  | noMotion : VimMotion
  | back : VimMotion
  | fwd : VimMotion
  | lineDown : VimMotion
  | lineUp : VimMotion
  | word : VimMotion
deriving DecidableEq, Repr

/-- Outcome of a reducer on a key event: the mode afterwards, whether
`preventDefault` and `stopPropagation` were called, and the motion
invoked (if any). -/
structure ReducerOut : Type where
  mode : Mode
  prevented : Bool
  stopped : Bool
  motion : VimMotion
deriving DecidableEq, Repr

/-- vim.ts lines 171-183, `insertReducer(e)`: on `Escape` it prevents
default, stops propagation and sets the mode to normal; on any other
key it does nothing (the event passes through to the host). -/
def insertReducer (m : Mode) (key : String) : ReducerOut :=
  if key = "Escape" then ⟨.normal, true, true, .noMotion⟩
  else ⟨m, false, false, .noMotion⟩

/-- vim.ts lines 198-233, `normalReducer(e)`: `a` and `i` prevent
default and enter insert mode; `h`, `j`, `k`, `l`, `W` prevent default
and run a motion; every other key hits the default case, which also
calls `preventDefault`.  The mode is left as it was except for the
`a`/`i` cases. -/
def normalReducer (m : Mode) (key : String) : ReducerOut :=
  if key = "a" ∨ key = "i" then ⟨.insert, true, false, .noMotion⟩
  else if key = "h" then ⟨m, true, false, .back⟩
  else if key = "j" then ⟨m, true, false, .lineDown⟩
  else if key = "k" then ⟨m, true, false, .lineUp⟩
  else if key = "l" then ⟨m, true, false, .fwd⟩
  else if key = "W" then ⟨m, true, false, .word⟩
  else ⟨m, true, false, .noMotion⟩

/-! ## Line registry (vim.ts lines 161-169, 235-268)

Surfaces are identified by the identity of their DOM element, modelled
as a number.  A keydown subscription lives on an element (not on a
TrackedLine); `subs` is the set of elements currently subscribed with
`handleKeydown` — `addEventListener` with the same listener twice is a
single registration, hence the insert-if-absent. -/

structure TrackedLine : Type where
  cursor_position : Nat
  element : Nat
deriving DecidableEq, Repr

structure EngineState : Type where
  active_line : Nat
  lines : List TrackedLine
  mode : Mode
  subs : List Nat
deriving DecidableEq, Repr

/-- vim.ts lines 161-169, `initVimInfo()` (no listeners installed). -/
def engineInit : EngineState := ⟨0, [], .normal, []⟩

-- element.addEventListener("keydown", handleKeydown)
def insertSub (subs : List Nat) (e : Nat) : List Nat :=
  if e ∈ subs then subs else subs ++ [e]

-- element.removeEventListener("keydown", handleKeydown)
def removeSub (subs : List Nat) (e : Nat) : List Nat :=
  subs.filter (fun x => x ≠ e)

/-- vim.ts lines 240-243: `let i = idx; if (idx >= lines.length)
i = lines.length - 1; if (i < 0) i = 0;`.  `idx` may be negative
(line-up from line 0 passes `active_line - 1`). -/
def clampIndex (idx : Int) (len : Nat) : Nat :=
  let i : Int := if idx ≥ (len : Int) then (len : Int) - 1 else idx
  (if i < 0 then (0 : Int) else i).toNat

/-- vim.ts lines 245-251: remove the keydown listener from the element
of the registry entry at the current `active_line`, if that entry
exists.  Note the lookup is in the *current* `vim_info.lines`. -/
def removePrev (st : EngineState) : EngineState :=
  match st.lines[st.active_line]? with
  | some l => { st with subs := removeSub st.subs l.element }
  | none => st

/-- vim.ts lines 235-259, `setActiveLine(idx)`: clamp the index,
deactivate the entry at the previous active index (if present), then —
if the target entry exists — click its element (focus, not modelled),
add the keydown listener and commit `active_line = i`. -/
def setActiveLine (st : EngineState) (idx : Int) : EngineState :=
  match (removePrev st).lines[clampIndex idx st.lines.length]? with
  | some l =>
      { removePrev st with
          subs := insertSub (removePrev st).subs l.element,
          active_line := clampIndex idx st.lines.length }
  | none => removePrev st

/-- vim.ts lines 261-268, `setLines(f)`: replace the registry wholesale
(every entry's `cursor_position` reset to 0), then re-activate
`vim_info.active_line || 0`, which equals `active_line` (a number that
is 0 exactly when it is falsy). -/
def setLines (st : EngineState) (elems : List Nat) : EngineState :=
  setActiveLine
    { st with lines := elems.map (fun e => ⟨0, e⟩) }
    ((st.active_line : Int))

/-- The NavigationState triple named by the spec (claims compare
`active_line`, `lines` and `mode`). -/
def navView (st : EngineState) : Nat × List TrackedLine × Mode :=
  (st.active_line, st.lines, st.mode)

/-- Subscription discipline: either no element is subscribed, or exactly
the active registry entry's element is. -/
def SubsInv (st : EngineState) : Prop :=
  st.subs = [] ∨ ∃ l, st.lines[st.active_line]? = some l ∧ st.subs = [l.element]

/-! ## Helper lemmas -/

/-- Structural induction over child forests, with the element case
providing the hypothesis for the children as well. -/
def forestInd {P : DomForest → Prop}
    (hnil : P .nil)
    (htext : ∀ s rest, P rest → P (.cons (.text s) rest))
    (helem : ∀ cs rest, P cs → P rest → P (.cons (.elem cs) rest)) :
    ∀ f, P f
  | .nil => hnil
  | .cons (.text s) rest => htext s rest (forestInd hnil htext helem rest)
  | .cons (.elem cs) rest =>
      helem cs rest (forestInd hnil htext helem cs) (forestInd hnil htext helem rest)

theorem addIdx_isSome (o : Option Sel) : (addIdx o).isSome = o.isSome := by
  match o with
  | none => rfl
  | some ([], _) => rfl
  | some (_ :: _, _) => rfl

/-- A request beyond the total text length finds no in-range node: the
walk completes without placing a selection. -/
theorem setCP_none_of_gt (cs : DomForest) :
    ∀ j : Nat, textLenList cs < j → setCursorPosition cs j = none := by
  induction cs using forestInd with
  | hnil => intro j _; rfl
  | htext s rest ih =>
      intro j h
      simp only [textLenList, textLen] at h
      have hxs : ¬ j ≤ s.length := by omega
      simp only [setCursorPosition, if_neg hxs]
      rw [ih (j - s.length) (by omega)]
      rfl
  | helem cs rest ih1 ih2 =>
      intro j h
      simp only [textLenList, textLen] at h
      have hxs : ¬ j ≤ textLenList cs := by omega
      simp only [setCursorPosition, if_neg hxs]
      rw [ih2 (j - textLenList cs) (by omega)]
      rfl

/-- A request at a positive offset within the total text length always
places a selection (only offset 0 can be swallowed by a leading chain
of childless element nodes). -/
theorem setCP_isSome (cs : DomForest) :
    ∀ j : Nat, 1 ≤ j → j ≤ textLenList cs → (setCursorPosition cs j).isSome = true := by
  induction cs using forestInd with
  | hnil =>
      intro j h1 h2
      simp only [textLenList] at h2
      omega
  | htext s rest ih =>
      intro j h1 h2
      simp only [textLenList, textLen] at h2
      by_cases hxs : j ≤ s.length
      · simp [setCursorPosition, hxs]
      · simp only [setCursorPosition, if_neg hxs, addIdx_isSome]
        exact ih (j - s.length) (by omega) (by omega)
  | helem cs rest ih1 ih2 =>
      intro j h1 h2
      simp only [textLenList, textLen] at h2
      by_cases hxs : j ≤ textLenList cs
      · obtain ⟨s, hs⟩ := Option.isSome_iff_exists.mp (ih1 j h1 hxs)
        simp [setCursorPosition, if_pos hxs, hs]
      · simp only [setCursorPosition, if_neg hxs, addIdx_isSome]
        exact ih2 (j - textLenList cs) (by omega) (by omega)

/-! ## C1 -/

/-- C1: the round-trip claim fails on the code, and the code is wrong
rather than the spec: `checkElementNode` propagates a successful nested
find with `break`, which falls through to `return false`, so any find
three or more levels deep makes the enclosing walk keep accumulating
the text of the following siblings.  On the surface
`[elem [elem [text "a"]], text "b"]` with offset 0, `setCursorPosition`
places the selection at the nested text node (path `[0,0,0]`, offset 0),
but `getCursorIndex` then reads back 1 — the length of the trailing
sibling text "b" — instead of 0. -/
theorem c1_roundtrip_failure_eval :
    textLenList
        (.cons (.elem (.cons (.elem (.cons (.text "a") .nil)) .nil))
          (.cons (.text "b") .nil)) = 2 ∧
    setCursorPosition
        (.cons (.elem (.cons (.elem (.cons (.text "a") .nil)) .nil))
          (.cons (.text "b") .nil)) 0 = some ([0, 0, 0], 0) ∧
    getCursorIndex
        (.cons (.elem (.cons (.elem (.cons (.text "a") .nil)) .nil))
          (.cons (.text "b") .nil))
        (setCursorPosition
          (.cons (.elem (.cons (.elem (.cons (.text "a") .nil)) .nil))
            (.cons (.text "b") .nil)) 0) = 1 ∧
    (1 : Nat) ≠ 0 := by decide

/-! ## C5 -/

/-- C5 counterexample: the claim says an offset beyond the text length
is clamped to the end of the last text-bearing node.  On the surface
`[text "ab"]` (length 2) with offset 3, `setCursorPosition` finds no
in-range node and places nothing — the previous selection (here: none)
stays, and the cursor reads back 0, not 2. -/
theorem c5_counterexample :
    setCursorPosition (.cons (.text "ab") .nil) 3 = none ∧
    applySetCursor (.cons (.text "ab") .nil) 3 none = none ∧
    getCursorIndex (.cons (.text "ab") .nil)
      (applySetCursor (.cons (.text "ab") .nil) 3 none) ≠ 2 := by decide

/-- C5 amended: for every offset strictly beyond the surface's total
text length, `setCursorPosition` is a silent no-op — the walk finds no
in-range node, no selection is placed, and the previous selection is
left unchanged; no error is propagated. -/
theorem c5_amended_out_of_range_noop (cs : DomForest) (o : Nat) (sel : Option Sel)
    (h : textLenList cs < o) :
    setCursorPosition cs o = none ∧ applySetCursor cs o sel = sel := by
  have hn := setCP_none_of_gt cs o h
  exact ⟨hn, by simp [applySetCursor, hn]⟩

/-- C5 witness: the amended statement at the surface `[text "ab"]`,
offset 5, prior selection at offset 1. -/
theorem c5_witness :
    textLenList (.cons (.text "ab") .nil) < 5 ∧
    (setCursorPosition (.cons (.text "ab") .nil) 5 = none ∧
      applySetCursor (.cons (.text "ab") .nil) 5 (some ([0], 1)) = some ([0], 1)) :=
  ⟨by decide, c5_amended_out_of_range_noop (.cons (.text "ab") .nil) 5 (some ([0], 1)) (by decide)⟩

/-! ## C8 -/

/-- C8 counterexample: the claim says that away from the boundaries the
motions write offset minus/plus one.  On the surface
`[elem [], text "a"]` with the selection at linear offset 1,
`moveCursorBackwards` requests placement at offset 0; the walk recurses
into the childless leading element (which is in range for offset 0),
places nothing, and the selection stays at linear offset 1 instead of
moving to 0. -/
theorem c8_counterexample :
    getCursorIndex (.cons (.elem .nil) (.cons (.text "a") .nil)) (some ([1], 1)) = 1 ∧
    moveCursorBackwards (.cons (.elem .nil) (.cons (.text "a") .nil)) (some ([1], 1)) =
      some ([1], 1) ∧
    getCursorIndex (.cons (.elem .nil) (.cons (.text "a") .nil))
      (moveCursorBackwards (.cons (.elem .nil) (.cons (.text "a") .nil)) (some ([1], 1))) ≠
      0 := by decide

/-- C8 amended: character-left at linear offset 0 and character-right at
the surface's text length leave the selection unchanged; otherwise the
motion requests placement at offset minus/plus one, and that placement
succeeds — yielding the selection `setCursorPosition` computes for the
new offset — for character-right always, and for character-left
whenever the current offset is at least 2 (placement at offset 0 can be
swallowed by a leading childless element, as the counterexample
shows). -/
theorem c8_amended_char_motions (surf : DomForest) (sel : Option Sel) :
    (getCursorIndex surf sel = 0 → moveCursorBackwards surf sel = sel) ∧
    (getCursorIndex surf sel = textLenList surf → moveCursorForwards surf sel = sel) ∧
    (getCursorIndex surf sel < textLenList surf →
      ∃ s, setCursorPosition surf (getCursorIndex surf sel + 1) = some s ∧
        moveCursorForwards surf sel = some s) ∧
    (2 ≤ getCursorIndex surf sel → getCursorIndex surf sel ≤ textLenList surf →
      ∃ s, setCursorPosition surf (getCursorIndex surf sel - 1) = some s ∧
        moveCursorBackwards surf sel = some s) := by
  refine ⟨?_, ?_, ?_, ?_⟩
  · intro h
    simp [moveCursorBackwards, h]
  · intro h
    simp [moveCursorForwards, h]
  · intro h
    have hs := setCP_isSome surf (getCursorIndex surf sel + 1) (by omega) (by omega)
    obtain ⟨s, hs⟩ := Option.isSome_iff_exists.mp hs
    refine ⟨s, hs, ?_⟩
    simp [moveCursorForwards, Nat.not_le.mpr h, applySetCursor, hs]
  · intro h1 h2
    have hs := setCP_isSome surf (getCursorIndex surf sel - 1) (by omega) (by omega)
    obtain ⟨s, hs⟩ := Option.isSome_iff_exists.mp hs
    refine ⟨s, hs, ?_⟩
    have h0 : getCursorIndex surf sel ≠ 0 := by omega
    simp [moveCursorBackwards, h0, applySetCursor, hs]

/-- C8 witness: the amended statement exercised on the surface
`[text "abc"]`: no-op cases at offsets 0 and 3, and successful writes
from offsets 1 (right) and 2 (left). -/
theorem c8_witness :
    (moveCursorBackwards (.cons (.text "abc") .nil) none = none) ∧
    (moveCursorForwards (.cons (.text "abc") .nil) (some ([0], 3)) = some ([0], 3)) ∧
    (∃ s, setCursorPosition (.cons (.text "abc") .nil)
        (getCursorIndex (.cons (.text "abc") .nil) (some ([0], 1)) + 1) = some s ∧
      moveCursorForwards (.cons (.text "abc") .nil) (some ([0], 1)) = some s) ∧
    (∃ s, setCursorPosition (.cons (.text "abc") .nil)
        (getCursorIndex (.cons (.text "abc") .nil) (some ([0], 2)) - 1) = some s ∧
      moveCursorBackwards (.cons (.text "abc") .nil) (some ([0], 2)) = some s) :=
  ⟨(c8_amended_char_motions (.cons (.text "abc") .nil) none).1 (by decide),
    (c8_amended_char_motions (.cons (.text "abc") .nil) (some ([0], 3))).2.1 (by decide),
    (c8_amended_char_motions (.cons (.text "abc") .nil) (some ([0], 1))).2.2.1 (by decide),
    (c8_amended_char_motions (.cons (.text "abc") .nil) (some ([0], 2))).2.2.2 (by decide)
      (by decide)⟩

/-! ## C6 and C10: the mode state machine -/

/-- C6: the mode machine satisfies its transition table.  In normal
mode, keys a and i prevent the event's default and switch to insert
mode, whose indicator text is "-- INSERT --"; in insert mode, Escape
prevents default (and stops propagation) and switches to normal mode,
whose indicator text is "-- NORMAL --"; any other key in insert mode
leaves the mode unchanged and does not suppress the event. -/
theorem c6_mode_state_machine :
    ((normalReducer .normal "a").mode = Mode.insert ∧
      (normalReducer .normal "a").prevented = true) ∧
    ((normalReducer .normal "i").mode = Mode.insert ∧
      (normalReducer .normal "i").prevented = true) ∧
    getModeText .insert = "-- INSERT --" ∧
    ((insertReducer .insert "Escape").mode = Mode.normal ∧
      (insertReducer .insert "Escape").prevented = true) ∧
    getModeText .normal = "-- NORMAL --" ∧
    (∀ key : String, key ≠ "Escape" →
      (insertReducer .insert key).mode = Mode.insert ∧
      (insertReducer .insert key).prevented = false ∧
      (insertReducer .insert key).stopped = false) := by
  refine ⟨by decide, by decide, by decide, by decide, by decide, ?_⟩
  intro key h
  simp [insertReducer, h]

/-- C6 witness: the universally quantified insert-mode clause exercised
at the key x. -/
theorem c6_witness :
    (insertReducer .insert "x").mode = Mode.insert ∧
    (insertReducer .insert "x").prevented = false ∧
    (insertReducer .insert "x").stopped = false :=
  c6_mode_state_machine.2.2.2.2.2 "x" (by decide)

/-- C10: in normal mode every key event has its default behavior
suppressed — the default case of normalReducer also calls
preventDefault, so no keystroke in normal mode reaches the host's
native editing behavior. -/
theorem c10_normal_mode_suppresses_all (key : String) :
    (normalReducer .normal key).prevented = true := by
  unfold normalReducer
  repeat' split
  all_goals rfl

/-! ## Registry lemmas -/

theorem removePrev_lines (st : EngineState) : (removePrev st).lines = st.lines := by
  rcases h : st.lines[st.active_line]? with _ | l <;> simp [removePrev, h]

theorem removePrev_active (st : EngineState) :
    (removePrev st).active_line = st.active_line := by
  rcases h : st.lines[st.active_line]? with _ | l <;> simp [removePrev, h]

theorem removePrev_mode (st : EngineState) : (removePrev st).mode = st.mode := by
  rcases h : st.lines[st.active_line]? with _ | l <;> simp [removePrev, h]

/-- Under the subscription discipline, deactivation always leaves no
subscription at all: either there was none, or exactly the active
entry's element was subscribed and its listener is removed. -/
theorem removePrev_subs_empty (st : EngineState) (h : SubsInv st) :
    (removePrev st).subs = [] := by
  rcases h with h0 | ⟨l, hl, hsubs⟩
  · rcases h' : st.lines[st.active_line]? with _ | l <;>
      simp [removePrev, h', h0, removeSub]
  · simp [removePrev, hl, hsubs, removeSub]

theorem setActiveLine_lines (st : EngineState) (idx : Int) :
    (setActiveLine st idx).lines = st.lines := by
  unfold setActiveLine
  rcases h : (removePrev st).lines[clampIndex idx st.lines.length]? with _ | l <;>
    simp [h, removePrev_lines]

theorem setActiveLine_mode (st : EngineState) (idx : Int) :
    (setActiveLine st idx).mode = st.mode := by
  unfold setActiveLine
  rcases h : (removePrev st).lines[clampIndex idx st.lines.length]? with _ | l <;>
    simp [h, removePrev_mode]

theorem setActiveLine_active (st : EngineState) (idx : Int) :
    (setActiveLine st idx).active_line =
      match st.lines[clampIndex idx st.lines.length]? with
      | some _ => clampIndex idx st.lines.length
      | none => st.active_line := by
  unfold setActiveLine
  rw [removePrev_lines]
  rcases h : st.lines[clampIndex idx st.lines.length]? with _ | l <;>
    simp [h, removePrev_active]

theorem setActiveLine_empty (st : EngineState) (idx : Int) (h : st.lines = []) :
    setActiveLine st idx = st := by
  have h1 : removePrev st = st := by simp [removePrev, h]
  unfold setActiveLine
  rw [h1, h]
  simp

theorem clampIndex_lt (idx : Int) (len : Nat) (h : 0 < len) : clampIndex idx len < len := by
  unfold clampIndex
  dsimp only
  split <;> split <;> omega

/-- Explicit form of an activation whose target entry exists. -/
theorem setActiveLine_of_some (st : EngineState) (idx : Int) (l : TrackedLine)
    (hl : st.lines[clampIndex idx st.lines.length]? = some l) :
    setActiveLine st idx =
      { removePrev st with
          subs := insertSub (removePrev st).subs l.element,
          active_line := clampIndex idx st.lines.length } := by
  unfold setActiveLine
  rw [removePrev_lines, hl]

/-- From an invariant state with a non-empty registry, activation leaves
exactly the new active entry's element subscribed. -/
theorem setActive_exact (st : EngineState) (idx : Int) (h : SubsInv st)
    (hne : st.lines ≠ []) :
    ∃ l, (setActiveLine st idx).lines[(setActiveLine st idx).active_line]? = some l ∧
      (setActiveLine st idx).subs = [l.element] := by
  have hlen : 0 < st.lines.length := List.length_pos.mpr hne
  have hi := clampIndex_lt idx st.lines.length hlen
  obtain ⟨l, hl⟩ : ∃ l, st.lines[clampIndex idx st.lines.length]? = some l := by
    rw [List.getElem?_eq_getElem hi]
    exact ⟨_, rfl⟩
  have hform := setActiveLine_of_some st idx l hl
  have hsubs0 := removePrev_subs_empty st h
  refine ⟨l, ?_, ?_⟩
  · rw [setActiveLine_lines, setActiveLine_active, hl]
    exact hl
  · rw [hform]
    simp [hsubs0, insertSub]

theorem subsInv_setActiveLine (st : EngineState) (idx : Int) (h : SubsInv st) :
    SubsInv (setActiveLine st idx) := by
  by_cases hne : st.lines = []
  · rw [setActiveLine_empty st idx hne]
    exact h
  · obtain ⟨l, h1, h2⟩ := setActive_exact st idx h hne
    exact Or.inr ⟨l, h1, h2⟩

/-- A registry-refresh chain from the initial state: register element 1
(it gets subscribed), refresh to a fresh element 2 (the listener on 1 is
not removed: the removal looks up the new registry), then refresh to
the pair 3, 2. -/
def refreshChain : EngineState :=
  setLines (setLines (setLines engineInit [1]) [2]) [3, 2]

/-! ## C2 -/

/-- C2 counterexample: after the reachable refresh chain, two tracked
surfaces (elements 3 and 2) hold live keydown subscriptions at once,
and the subscription installed on element 1 — the previously active
surface of the first registry — was never removed (it dangles: 1 is
subscribed but no longer tracked). -/
theorem c2_counterexample :
    (refreshChain.lines.filter
      (fun l => refreshChain.subs.contains l.element)).length = 2 ∧
    refreshChain.subs.contains 1 = true ∧
    (refreshChain.lines.map TrackedLine.element).contains 1 = false := by decide

/-- C2 amended: setActiveLine does deactivate-before-activate against
the current registry, so from any state whose subscriptions are
confined to the current active entry's element, at most one
subscription is live afterwards; across a full-registry refresh via
setLines this is preserved only when the subscriptions are confined to
the new registry's entry at the previous active index (e.g. when the
refresh reuses the same surfaces) — a refresh that replaces elements
leaves the previously active surface's subscription dangling, as the
counterexample shows. -/
theorem c2_amended_subscription_invariant (st : EngineState) (idx : Int) (h : SubsInv st) :
    (SubsInv (setActiveLine st idx) ∧ (setActiveLine st idx).subs.length ≤ 1) ∧
    (∀ elems : List Nat,
      SubsInv { st with lines := elems.map (fun e => TrackedLine.mk 0 e) } →
      SubsInv (setLines st elems) ∧ (setLines st elems).subs.length ≤ 1) := by
  have main : ∀ (s : EngineState) (i : Int), SubsInv s →
      SubsInv (setActiveLine s i) ∧ (setActiveLine s i).subs.length ≤ 1 := by
    intro s i hs
    have hinv := subsInv_setActiveLine s i hs
    refine ⟨hinv, ?_⟩
    rcases hinv with h0 | ⟨l, _, hsub⟩
    · simp [h0]
    · simp [hsub]
  refine ⟨main st idx h, ?_⟩
  intro elems h2
  exact main _ _ h2

/-- C2 witness: the amended statement at a one-line registry whose
single element is subscribed, with index 0 and a same-element refresh. -/
theorem c2_witness :
    (SubsInv (setActiveLine ⟨0, [⟨0, 1⟩], .normal, [1]⟩ 0) ∧
      (setActiveLine ⟨0, [⟨0, 1⟩], .normal, [1]⟩ 0).subs.length ≤ 1) ∧
    (SubsInv (setLines ⟨0, [⟨0, 1⟩], .normal, [1]⟩ [1]) ∧
      (setLines ⟨0, [⟨0, 1⟩], .normal, [1]⟩ [1]).subs.length ≤ 1) :=
  ⟨(c2_amended_subscription_invariant ⟨0, [⟨0, 1⟩], .normal, [1]⟩ 0
      (Or.inr ⟨⟨0, 1⟩, rfl, rfl⟩)).1,
    (c2_amended_subscription_invariant ⟨0, [⟨0, 1⟩], .normal, [1]⟩ 0
      (Or.inr ⟨⟨0, 1⟩, rfl, rfl⟩)).2 [1] (Or.inr ⟨⟨0, 1⟩, rfl, rfl⟩)⟩

/-! ## C9 -/

/-- C9 counterexample: in a reachable state (the refresh chain), calling
setActiveLine 0 twice leaves two lines subscribed to key events at
once — the claim's "exactly one line holds a subscription, never two"
fails, because stale subscriptions from earlier refreshes survive. -/
theorem c9_counterexample :
    ((setActiveLine (setActiveLine refreshChain 0) 0).lines.filter
      (fun l => (setActiveLine (setActiveLine refreshChain 0) 0).subs.contains
        l.element)).length = 2 := by decide

/-- C9 amended: setActiveLine is idempotent on the NavigationState
triple (active_line, lines, mode) for every state and index; and the
"exactly one subscription afterwards" half holds provided the starting
state's subscriptions are confined to its active entry's element (no
stale subscription from an earlier registry refresh), the registry
being non-empty. -/
theorem c9_amended_idempotence (st : EngineState) (idx : Int) :
    navView (setActiveLine (setActiveLine st idx) idx) = navView (setActiveLine st idx) ∧
    (SubsInv st → st.lines ≠ [] →
      ∃ l, (setActiveLine (setActiveLine st idx) idx).lines[
            (setActiveLine (setActiveLine st idx) idx).active_line]? = some l ∧
        (setActiveLine (setActiveLine st idx) idx).subs = [l.element]) := by
  constructor
  · have hl := setActiveLine_lines st idx
    have ha1 := setActiveLine_active st idx
    have ha2 := setActiveLine_active (setActiveLine st idx) idx
    rw [hl] at ha2
    rcases h : st.lines[clampIndex idx st.lines.length]? with _ | l
    · rw [h] at ha1 ha2
      simp [navView, setActiveLine_lines, setActiveLine_mode, ha1, ha2]
    · rw [h] at ha1 ha2
      simp [navView, setActiveLine_lines, setActiveLine_mode, ha1, ha2]
  · intro hinv hne
    have hinv1 := subsInv_setActiveLine st idx hinv
    have hne1 : (setActiveLine st idx).lines ≠ [] := by
      rw [setActiveLine_lines]
      exact hne
    exact setActive_exact (setActiveLine st idx) idx hinv1 hne1

/-- C9 witness: the amended statement at a one-line registry whose
single element is subscribed, with index 0. -/
theorem c9_witness :
    navView (setActiveLine (setActiveLine ⟨0, [⟨0, 1⟩], .normal, [1]⟩ 0) 0) =
      navView (setActiveLine ⟨0, [⟨0, 1⟩], .normal, [1]⟩ 0) ∧
    (∃ l, (setActiveLine (setActiveLine ⟨0, [⟨0, 1⟩], .normal, [1]⟩ 0) 0).lines[
          (setActiveLine (setActiveLine ⟨0, [⟨0, 1⟩], .normal, [1]⟩ 0) 0).active_line]? =
        some l ∧
      (setActiveLine (setActiveLine ⟨0, [⟨0, 1⟩], .normal, [1]⟩ 0) 0).subs = [l.element]) :=
  ⟨(c9_amended_idempotence ⟨0, [⟨0, 1⟩], .normal, [1]⟩ 0).1,
    (c9_amended_idempotence ⟨0, [⟨0, 1⟩], .normal, [1]⟩ 0).2
      (Or.inr ⟨⟨0, 1⟩, rfl, rfl⟩) (by decide)⟩

/-! ## C7 -/

/-- C7 counterexample: the claim says every motion is a silent no-op
when no lines are registered.  But moveCursorForwards consults only the
focused element and the selection — the line registry appears nowhere
among its inputs (see its definition) — so regardless of the registry
being empty it moves the selection: on a focused surface [text "ab"]
with the selection at offset 0 it places the cursor at offset 1. -/
theorem c7_counterexample :
    moveCursorForwards (.cons (.text "ab") .nil) (some ([0], 0)) = some ([0], 1) ∧
    (some ([0], 1) : Option Sel) ≠ some ([0], 0) := by decide

/-- C7 amended: with no lines registered, the line motions (setActiveLine,
hence line-up and line-down) are exact no-ops and word-forward leaves
the active line unchanged; a missing or malformed selection is read as
offset 0 by getCursorIndex; all embedded operations are total.  The
character and word motions, however, operate on the focused element
irrespective of the registry, so they are not in general no-ops when
the registry is empty. -/
theorem c7_amended_motion_safety :
    (∀ cs : DomForest, getCursorIndex cs none = 0) ∧
    (∀ (st : EngineState) (idx : Int), st.lines = [] → setActiveLine st idx = st) ∧
    (∀ (lines : List (List Char)) (active cur : Nat) (t : List Char), lines = [] →
      (jumpToNextWORD lines active t cur).1 = active) := by
  refine ⟨fun cs => rfl, fun st idx h => setActiveLine_empty st idx h, ?_⟩
  intro lines active cur t h
  subst h
  by_cases hlt : nextWhiteSpaceIndex t cur < t.length <;> simp [jumpToNextWORD, hlt]

/-- C7 witness: the amended statement at the empty surface, the initial
engine state with index 5, and an empty registry word-forward. -/
theorem c7_witness :
    getCursorIndex DomForest.nil none = 0 ∧
    setActiveLine engineInit 5 = engineInit ∧
    (jumpToNextWORD [] 0 "ab".toList 0).1 = 0 :=
  ⟨c7_amended_motion_safety.1 .nil, c7_amended_motion_safety.2.1 engineInit 5 rfl,
    c7_amended_motion_safety.2.2 [] 0 0 "ab".toList rfl⟩

/-! ## Whitespace-search lemmas -/

theorem get_congr (l : List Char) (i j : Nat) (hi : i < l.length) (hj : j < l.length)
    (hij : i = j) : l.get ⟨i, hi⟩ = l.get ⟨j, hj⟩ := by
  subst hij
  rfl

theorem drop_get_eq (l : List Char) (pos j : Nat) (hj : j < (l.drop pos).length) :
    (l.drop pos).get ⟨j, hj⟩ = l.get ⟨pos + j, by simp at hj; omega⟩ := by
  simp [List.get_eq_getElem, List.getElem_drop]

theorem searchWS_eq_none (l : List Char)
    (h : ∀ (j : Nat) (hj : j < l.length), whitespace (l.get ⟨j, hj⟩) = false) :
    searchWS l = none := by
  induction l with
  | nil => rfl
  | cons c r ih =>
      have hc : whitespace c = false := h 0 (by simp)
      have hr : searchWS r = none := by
        apply ih
        intro j hj
        exact h (j + 1) (by simpa using Nat.succ_lt_succ hj)
      simp [searchWS, hc, hr]

theorem searchWS_eq_some (l : List Char) (k : Nat) (hk : k < l.length)
    (hw : whitespace (l.get ⟨k, hk⟩) = true)
    (hmin : ∀ (j : Nat) (hj : j < l.length), j < k → whitespace (l.get ⟨j, hj⟩) = false) :
    searchWS l = some k := by
  induction l generalizing k with
  | nil => simp at hk
  | cons c r ih =>
      cases k with
      | zero =>
          have hc : whitespace c = true := hw
          simp [searchWS, hc]
      | succ m =>
          have hc : whitespace c = false := hmin 0 (by simp) (Nat.succ_pos m)
          have hr : searchWS r = some m := by
            apply ih m (Nat.lt_of_succ_lt_succ hk) hw
            intro j hj hjk
            exact hmin (j + 1) (by simpa using Nat.succ_lt_succ hj) (Nat.succ_lt_succ hjk)
          simp [searchWS, hc, hr]

/-- When `f` is the first whitespace index at or after `pos`, the
scan of vim.ts lines 60-68 yields exactly `f`. -/
theorem nextWS_eq_of_first (text : List Char) (pos f : Nat) (hf : f < text.length)
    (hpf : pos ≤ f) (hw : whitespace (text.get ⟨f, hf⟩) = true)
    (hfirst : ∀ (j : Nat) (hj : j < text.length), pos ≤ j → j < f →
      whitespace (text.get ⟨j, hj⟩) = false) :
    nextWhiteSpaceIndex text pos = f := by
  have hk : f - pos < (text.drop pos).length := by simp; omega
  have hsome : searchWS (text.drop pos) = some (f - pos) := by
    apply searchWS_eq_some _ _ hk
    · rw [drop_get_eq]
      rw [get_congr text (pos + (f - pos)) f _ hf (by omega)]
      exact hw
    · intro j hj hjk
      rw [drop_get_eq]
      exact hfirst (pos + j) _ (by omega) (by omega)
  unfold nextWhiteSpaceIndex
  rw [hsome]
  show pos + (f - pos) = f
  omega

/-- When no whitespace occurs at or after `pos`, the scan yields the
text length. -/
theorem nextWS_eq_len_of_none (text : List Char) (pos : Nat)
    (h : ∀ (j : Nat) (hj : j < text.length), pos ≤ j →
      whitespace (text.get ⟨j, hj⟩) = false) :
    nextWhiteSpaceIndex text pos = text.length := by
  have hnone : searchWS (text.drop pos) = none := by
    apply searchWS_eq_none
    intro j hj
    rw [drop_get_eq]
    exact h (pos + j) _ (by omega)
  unfold nextWhiteSpaceIndex
  rw [hnone]

/-! ## C4 -/

/-- C4: word-forward within a single surface.  If the first whitespace
at or after the starting offset sits at index f with f + 1 still inside
the text, the motion places the cursor at f + 1 in the current surface
(active line unchanged); if no whitespace occurs at or after the start
and there is no next line, it places the cursor at the text length. -/
theorem c4_word_forward_within_surface (lines : List (List Char)) (active : Nat)
    (text : List Char) (pos : Nat) :
    (∀ (f : Nat) (hf : f < text.length), pos ≤ f →
      whitespace (text.get ⟨f, hf⟩) = true →
      (∀ (j : Nat) (hj : j < text.length), pos ≤ j → j < f →
        whitespace (text.get ⟨j, hj⟩) = false) →
      f + 1 < text.length →
      jumpToNextWORD lines active text pos = (active, .current (f + 1))) ∧
    ((∀ (j : Nat) (hj : j < text.length), pos ≤ j →
        whitespace (text.get ⟨j, hj⟩) = false) →
      lines[active + 1]? = none →
      jumpToNextWORD lines active text pos = (active, .current (text.length))) ∧
    ((∀ (j : Nat) (hj : j < text.length), pos ≤ j →
        whitespace (text.get ⟨j, hj⟩) = false) →
      jumpWithin text pos = text.length) := by
  refine ⟨?_, ?_, ?_⟩
  · intro f hf hpf hw hfirst _
    have hn := nextWS_eq_of_first text pos f hf hpf hw hfirst
    simp [jumpToNextWORD, hn, hf]
  · intro hnone hnoline
    have hn := nextWS_eq_len_of_none text pos hnone
    simp [jumpToNextWORD, hn, hnoline]
  · intro hnone
    have hn := nextWS_eq_len_of_none text pos hnone
    simp [jumpWithin, hn]

/-- C4 witness: the two examples named by the claim — on "hello world"
from offset 0 the motion lands at 6, and on "hello" from offset 0 (no
whitespace, no next line) it lands at 5. -/
theorem c4_witness :
    jumpToNextWORD [] 0 "hello world".toList 0 = (0, .current 6) ∧
    jumpToNextWORD [] 0 "hello".toList 0 = (0, .current 5) ∧
    jumpWithin "hello".toList 0 = 5 := by
  refine ⟨?_, ?_, ?_⟩
  · exact (c4_word_forward_within_surface [] 0 "hello world".toList 0).1 5 (by decide)
      (by decide) (by decide)
      (fun j hj h1 h2 => by interval_cases j <;> rfl) (by decide)
  · have h5 : ("hello".toList).length = 5 := by decide
    exact (c4_word_forward_within_surface [] 0 "hello".toList 0).2.1
      (fun j hj h1 => by
        rw [h5] at hj
        interval_cases j <;> rfl) rfl
  · have h5 : ("hello".toList).length = 5 := by decide
    exact (c4_word_forward_within_surface [] 0 "hello".toList 0).2.2
      (fun j hj h1 => by
        rw [h5] at hj
        interval_cases j <;> rfl)

/-! ## C3 -/

/-- C3 counterexample: word-forward at the end of the line "end" whose
next line is "  next" advances the active line to 1 but places the
cursor at offset 1 of the new line — ON the second space, one past the
first whitespace character — not at offset 2 (the first non-whitespace
character) that the claim requires. -/
theorem c3_counterexample :
    jumpToNextWORD ["end".toList, "  next".toList] 0 "end".toList 3 = (1, .line 1 1) ∧
    jumpToNextWORD ["end".toList, "  next".toList] 0 "end".toList 3 ≠
      (1, .line 1 2) := by decide

/-- C3 amended: word-forward invoked with no whitespace left in the
current surface, when the next tracked line exists and its text begins
with a whitespace character, advances the active line by 1 and places
the cursor at offset 1 of the new line — one past the first whitespace
character, which may itself be whitespace.  The recursion into the next
line does not skip the whole whitespace run, so the landing is not in
general a non-whitespace character (nor end-of-surface for an
all-whitespace next line). -/
theorem c3_amended_crossline_landing (lines : List (List Char)) (active cur : Nat)
    (focusText t : List Char) (c : Char)
    (hend : nextWhiteSpaceIndex focusText cur = focusText.length)
    (hnext : lines[active + 1]? = some t)
    (hhead : t.head? = some c) (hws : whitespace c = true) :
    jumpToNextWORD lines active focusText cur = (active + 1, .line (active + 1) 1) := by
  cases t with
  | nil => simp at hhead
  | cons c0 r =>
      have hc0 : c0 = c := by simpa using hhead
      subst hc0
      have hsw : searchWS (c0 :: r) = some 0 := by simp [searchWS, hws]
      have hnw : nextWhiteSpaceIndex (c0 :: r) 0 = 0 := by
        simp [nextWhiteSpaceIndex, hsw]
      have hjw : jumpWithin (c0 :: r) 0 = 1 := by
        simp [jumpWithin, hnw]
      simp [jumpToNextWORD, hend, hnext, hws, hjw]

/-- C3 amended witness: at the end of the line "ab", with next line
" x", the motion advances to line 1 and lands at offset 1. -/
theorem c3_amended_witness :
    jumpToNextWORD ["ab".toList, " x".toList] 0 "ab".toList 2 = (1, .line 1 1) :=
  c3_amended_crossline_landing ["ab".toList, " x".toList] 0 2 "ab".toList " x".toList ' '
    (by decide) (by decide) (by decide) (by decide)

end VimNotion
